import Mathlib

/-!
Verification of the `tabby` utility (src/main.rs): classification of file
contents into one-line / multi-line / error, the two-pass renderer, and the
hand-rolled argument parser.  Strings are embedded as `List Char` (the file
contents decoded as text); `io::Error` is embedded as its display string.
-/

set_option autoImplicit false

/-- The `Text` enum of src/main.rs: a classified file content.
`err` carries the display string of the underlying `io::Error`. -/
inductive Text where
  | oneline (s : List Char)
  | multiline (s : List Char)
  | err (msg : List Char)
deriving DecidableEq, Repr

namespace Text

/-- `count_newlines` from `Text::new`: the number of newline characters. -/
def count_newlines (s : List Char) : Nat :=
  (s.filter (fun b => b = '\n')).length

/-- `text.trim_end_matches('\n')`: remove the trailing run of newlines. -/
def trim_end_newlines (s : List Char) : List Char :=
  (s.reverse.dropWhile (fun c => c = '\n')).reverse

/-- `text.ends_with('\n')`. -/
def ends_with_newline (s : List Char) : Bool :=
  match s.reverse with
  | [] => false
  | c :: _ => c = '\n'

/-- `Text::new` from src/main.rs: classify a file's contents.  In the source
the one-line branch reuses the original buffer truncated to the trimmed
length, which equals the trimmed prefix itself. -/
def new (text : List Char) : Text :=
  let trimmed := trim_end_newlines text
  let orig_count := count_newlines text
  let trimmed_count := count_newlines trimmed
  if orig_count = 0 then
    .oneline text
  else if trimmed_count = 0 then
    .oneline trimmed
  else if ends_with_newline text then
    .multiline text
  else
    .multiline (text ++ ['\n'])

/-- `Text::is_multiline`. -/
def is_multiline : Text → Bool
  | .multiline _ => true
  | _ => false

/-- `Text::is_err`. -/
def is_err : Text → Bool
  | .err _ => true
  | _ => false

/-- The `Display` impl for `Text`: payload verbatim, or a bracketed error. -/
def display : Text → List Char
  | .oneline s => s
  | .multiline s => s
  | .err msg => ("[Error: ").data ++ msg ++ ("]").data

/-- `Text::read` given a model `fs` of the filesystem: a successful read is
classified by `Text::new`, a failed one becomes `Text::err`. -/
def read (fs : List Char → Except (List Char) (List Char)) (p : List Char) :
    Text :=
  match fs p with
  | .ok t => Text.new t
  | .error e => Text.err e

end Text

/-- The length of the trailing run of newline characters of `s`. -/
def trailing_newlines (s : List Char) : Nat :=
  (s.reverse.takeWhile (fun c => c = '\n')).length

/-- One element of the `files` vector of `run()`: a path paired with its
classified content. -/
abbrev Entry := List Char × Text

/-- `.max()` of a Rust iterator over the path lengths: `none` on an empty
list (whereupon `run()` panics via `.expect("empty files list")`). -/
def list_max : List Nat → Option Nat
  | [] => none
  | a :: as => some (as.foldl max a)

/-- The `{path:>w$}` format: left-pad with spaces to width `w`. -/
def right_align (w : Nat) (s : List Char) : List Char :=
  List.replicate (w - s.length) ' ' ++ s

/-- One row of the first loop of `run()`:
`println!("{path:>max_pathlen$}: {text}")`. -/
def render_oneline (w : Nat) (e : Entry) : List Char :=
  right_align w e.1 ++ (": ").data ++ e.2.display ++ ['\n']

/-- One block of the second loop of `run()`: `print!("\n{path}:\n{text}")`. -/
def render_multiline (e : Entry) : List Char :=
  '\n' :: (e.1 ++ (":").data ++ ['\n'] ++ e.2.display)

/-- The output of the first loop of `run()`: the non-multiline entries, in
order, each rendered as an aligned row. -/
def pass1 (w : Nat) (files : List Entry) : List Char :=
  ((files.filter (fun e => !e.2.is_multiline)).map (render_oneline w)).flatten

/-- The output of the second loop of `run()`: the multiline entries, in
order, each rendered as a block. -/
def pass2 (files : List Entry) : List Char :=
  ((files.filter (fun e => e.2.is_multiline)).map render_multiline).flatten

/-- The `had_err` accumulator of `run()`: it is or-ed over exactly the
entries visited by the first loop. -/
def had_err (files : List Entry) : Bool :=
  (files.filter (fun e => !e.2.is_multiline)).any (fun e => e.2.is_err)

/-- The rendering part of `run()` (everything after `parse_args`, with the
classified entries as input): the produced stdout text and the exit code
(`ExitCode::FAILURE = 1` iff `had_err`).  `none` models the
`.expect("empty files list")` panic on an empty entry list. -/
def run_render (files : List Entry) : Option (List Char × Nat) :=
  match list_max (files.map (fun e => e.1.length)) with
  | none => none
  | some w => some (pass1 w files ++ pass2 files, if had_err files then 1 else 0)

/-- The `HELP` string of the non-clap `parse_args`. -/
def HELP : List Char :=
  ("Usage: tabby FILE [FILE...]\nDisplay the contents of multiple one-line files.\n\nArguments:\n  FILE          File(s) to dump\n\nOptions:\n  -h --help     Show this help text\n").data

/-- The ASCII single-quote character used by the invalid-argument message. -/
def quoteChar : Char := Char.ofNat 39

/-- `eprint!("Error: missing argument\n{HELP}")`. -/
def ERR_MISSING : List Char := ("Error: missing argument\n").data ++ HELP

/-- `eprint!("Error: invalid argument: {arg}\n{HELP}")` with the argument
wrapped in single quotes, as in the source. -/
def err_invalid (a : List Char) : List Char :=
  ("Error: invalid argument: ").data ++ [quoteChar] ++ a ++ [quoteChar] ++
    ('\n' :: HELP)

/-- `arg.starts_with('-')`. -/
def starts_with_dash : List Char → Bool
  | '-' :: _ => true
  | _ => false

/-- The `for arg in args.iter()` loop of the non-clap `parse_args`: the first
flag-like argument decides.  Returns `some (stdout, stderr, code)` when the
loop returns early (`-h`/`--help` prints `HELP` to stdout and exits 0, any
other dash argument prints to stderr and exits 2). -/
def scan_args : List (List Char) → Option (List Char × List Char × Nat)
  | [] => none
  | a :: rest =>
    if a = ("-h").data ∨ a = ("--help").data then some (HELP, [], 0)
    else if starts_with_dash a then some ([], err_invalid a, 2)
    else scan_args rest

/-- The non-clap `parse_args` of src/main.rs, over the argument list after
`skip(1)`: returns the stdout and stderr it prints together with either an
exit code (`Except.error`) or the accepted path list (`Except.ok`). -/
def parse_args (args : List (List Char)) :
    List Char × List Char × Except Nat (List (List Char)) :=
  if args.isEmpty then ([], ERR_MISSING, .error 2)
  else
    match scan_args args with
    | some (pout, perr, c) => (pout, perr, .error c)
    | none => ([], [], .ok args)

/-- `main()` = `parse_args` then `run()`'s rendering, over a model `fs` of
the filesystem: the final stdout, stderr and process exit code.  `none`
models the unreachable empty-list panic. -/
def run_main (args : List (List Char))
    (fs : List Char → Except (List Char) (List Char)) :
    Option (List Char × List Char × Nat) :=
  match parse_args args with
  | (pout, perr, .error c) => some (pout, perr, c)
  | (pout, perr, .ok paths) =>
    let files := paths.map (fun p => (p, Text.read fs p))
    match run_render files with
    | none => none
    | some (out, c) => some (pout ++ out, perr, c)

example : Text.new ['h', 'i'] = .oneline ['h', 'i'] := by decide
example : Text.new ['x', '\n'] = .oneline ['x'] := by decide
example : Text.new ['\n', '\n', '\n'] = .oneline [] := by decide
example : Text.new ['a', '\n', 'b'] = .multiline ['a', '\n', 'b', '\n'] := by
  decide
example : Text.new ['a', '\n', 'b', '\n'] = .multiline ['a', '\n', 'b', '\n'] := by
  decide
example :
    Text.new ['a', '\n', 'b', '\n', '\n'] = .multiline ['a', '\n', 'b', '\n', '\n'] := by
  decide
example : trailing_newlines ['a', '\n', 'b', '\n', '\n'] = 2 := by decide

/-! ### Lemmas about trimming and counting newlines -/

lemma dropWhile_eq_self_of_not {p : Char → Bool} {l : List Char}
    (h : ∀ c ∈ l, p c = false) : l.dropWhile p = l := by
  cases l with
  | nil => rfl
  | cons a as => rw [List.dropWhile_cons_of_neg]; simp [h a]

lemma dropWhile_eq_nil_of_all {p : Char → Bool} {l : List Char}
    (h : ∀ c ∈ l, p c = true) : l.dropWhile p = [] := by
  induction l with
  | nil => rfl
  | cons a as ih =>
    rw [List.dropWhile_cons_of_pos (h a (by simp))]
    exact ih fun c hc => h c (by simp [hc])

lemma count_newlines_eq_zero_iff {t : List Char} :
    Text.count_newlines t = 0 ↔ ∀ c ∈ t, c ≠ '\n' := by
  simp [Text.count_newlines, List.length_eq_zero, List.filter_eq_nil_iff]

lemma trim_eq_self_of_no_newline {t : List Char}
    (h : Text.count_newlines t = 0) : Text.trim_end_newlines t = t := by
  unfold Text.trim_end_newlines
  rw [dropWhile_eq_self_of_not, List.reverse_reverse]
  intro c hc
  simpa using count_newlines_eq_zero_iff.mp h c (List.mem_reverse.mp hc)

lemma trim_eq_nil_of_all_newlines {t : List Char}
    (h : ∀ c ∈ t, c = '\n') : Text.trim_end_newlines t = [] := by
  unfold Text.trim_end_newlines
  rw [dropWhile_eq_nil_of_all, List.reverse_nil]
  intro c hc
  simpa using h c (List.mem_reverse.mp hc)

lemma trim_sublist (t : List Char) :
    (Text.trim_end_newlines t).Sublist t := by
  unfold Text.trim_end_newlines
  have h := List.dropWhile_sublist (l := t.reverse) (p := fun c => c = '\n')
  simpa using h.reverse

lemma count_trim_le (t : List Char) :
    Text.count_newlines (Text.trim_end_newlines t) ≤ Text.count_newlines t :=
  (((trim_sublist t).filter _).length_le)

lemma one_le_trailing_of_ends {s : List Char}
    (h : Text.ends_with_newline s = true) : 1 ≤ trailing_newlines s := by
  unfold Text.ends_with_newline at h
  unfold trailing_newlines
  cases hr : s.reverse with
  | nil => rw [hr] at h; simp at h
  | cons a as =>
    rw [hr] at h
    simp only [decide_eq_true_eq] at h
    rw [List.takeWhile_cons_of_pos (by simp [h])]
    simp

lemma ends_append_newline (t : List Char) :
    Text.ends_with_newline (t ++ ['\n']) = true := by
  unfold Text.ends_with_newline
  rw [List.reverse_append]
  simp

/-! ### Claims about the classifier -/

/-- C1 counterexample: classifying `"a\nb\n\n"` yields a `multiline` payload
whose trailing newline run has length 2, not 1 — the source only appends a
newline when one is missing and never trims extras. -/
theorem C1_counterexample_two_trailing :
    Text.new ['a', '\n', 'b', '\n', '\n'] =
      .multiline ['a', '\n', 'b', '\n', '\n'] ∧
    trailing_newlines ['a', '\n', 'b', '\n', '\n'] ≠ 1 := by decide

/-- C1 (amended): every `multiline` payload produced by `Text::new` ends
with at least one trailing newline (not necessarily exactly one). -/
theorem C1_multiline_ends_with_newline (t c : List Char)
    (h : Text.new t = .multiline c) :
    Text.ends_with_newline c = true ∧ 1 ≤ trailing_newlines c := by
  unfold Text.new at h
  by_cases h1 : Text.count_newlines t = 0
  · simp [h1] at h
  · by_cases h2 : Text.count_newlines (Text.trim_end_newlines t) = 0
    · simp [h1, h2] at h
    · by_cases h3 : Text.ends_with_newline t = true
      · rw [if_neg h1, if_neg h2, if_pos h3] at h
        injection h with h
        subst h
        exact ⟨h3, one_le_trailing_of_ends h3⟩
      · rw [if_neg h1, if_neg h2, if_neg h3] at h
        injection h with h
        subst h
        exact ⟨ends_append_newline t,
          one_le_trailing_of_ends (ends_append_newline t)⟩

/-- Witness for C1 (amended) at `t = "a\nb"`, `c = "a\nb\n"`. -/
theorem C1_multiline_ends_with_newline_witness :
    Text.ends_with_newline ['a', '\n', 'b', '\n'] = true ∧
    1 ≤ trailing_newlines ['a', '\n', 'b', '\n'] :=
  C1_multiline_ends_with_newline ['a', '\n', 'b'] ['a', '\n', 'b', '\n']
    (by decide)

/-- C2: if the newlines of `t` (if any) form only a trailing run, then
`Text::new` yields `oneline` of `t` with the trailing run stripped; a
newline-free `t` is returned unchanged and an all-newline `t` yields
`oneline` of the empty string. -/
theorem C2_trailing_run_oneline (t : List Char)
    (h : Text.count_newlines (Text.trim_end_newlines t) = 0) :
    Text.new t = .oneline (Text.trim_end_newlines t) ∧
    (Text.count_newlines t = 0 → Text.new t = .oneline t) ∧
    ((∀ c ∈ t, c = '\n') → Text.new t = .oneline []) := by
  have key : Text.new t = .oneline (Text.trim_end_newlines t) := by
    unfold Text.new
    by_cases h1 : Text.count_newlines t = 0
    · simp [h1, trim_eq_self_of_no_newline h1]
    · simp [h1, h]
  refine ⟨key, ?_, ?_⟩
  · intro h1
    rw [key, trim_eq_self_of_no_newline h1]
  · intro hall
    rw [key, trim_eq_nil_of_all_newlines hall]

/-- Witness for C2 at `t = "x\n"` (and the all-newline case at `"\n\n"`). -/
theorem C2_trailing_run_oneline_witness :
    Text.new ['x', '\n'] = .oneline (Text.trim_end_newlines ['x', '\n']) ∧
    (Text.count_newlines ['x', '\n'] = 0 →
      Text.new ['x', '\n'] = .oneline ['x', '\n']) ∧
    ((∀ c ∈ ['x', '\n'], c = '\n') → Text.new ['x', '\n'] = .oneline []) :=
  C2_trailing_run_oneline ['x', '\n'] (by decide)

/-- C3: if a newline survives the trailing trim (an internal line break),
`Text::new` yields `multiline`, appending exactly one newline iff the text
does not already end with one; in particular `"a\nb"` and `"a\nb\n"` both
classify to `multiline "a\nb\n"`. -/
theorem C3_internal_newline_multiline (t : List Char)
    (h : Text.count_newlines (Text.trim_end_newlines t) ≠ 0) :
    Text.new t =
      .multiline (if Text.ends_with_newline t then t else t ++ ['\n']) ∧
    Text.new ['a', '\n', 'b'] = .multiline ['a', '\n', 'b', '\n'] ∧
    Text.new ['a', '\n', 'b', '\n'] = .multiline ['a', '\n', 'b', '\n'] := by
  refine ⟨?_, by decide, by decide⟩
  have h1 : Text.count_newlines t ≠ 0 := by
    intro h0
    exact h (Nat.le_zero.mp (h0 ▸ count_trim_le t))
  unfold Text.new
  by_cases h3 : Text.ends_with_newline t = true
  · simp [h1, h, h3]
  · simp [h1, h, h3]

/-- Witness for C3 at `t = "a\nb"`. -/
theorem C3_internal_newline_multiline_witness :
    Text.new ['a', '\n', 'b'] =
      .multiline (if Text.ends_with_newline ['a', '\n', 'b']
        then ['a', '\n', 'b'] else ['a', '\n', 'b'] ++ ['\n']) ∧
    Text.new ['a', '\n', 'b'] = .multiline ['a', '\n', 'b', '\n'] ∧
    Text.new ['a', '\n', 'b', '\n'] = .multiline ['a', '\n', 'b', '\n'] :=
  C3_internal_newline_multiline ['a', '\n', 'b'] (by decide)

/-! ### Lemmas about the renderer -/

lemma foldl_max_le (a : Nat) (l : List Nat) :
    a ≤ l.foldl max a ∧ ∀ x ∈ l, x ≤ l.foldl max a := by
  induction l generalizing a with
  | nil => exact ⟨Nat.le_refl a, by simp⟩
  | cons b bs ih =>
    obtain ⟨h1, h2⟩ := ih (max a b)
    refine ⟨Nat.le_trans (Nat.le_max_left a b) h1, ?_⟩
    intro x hx
    rcases List.mem_cons.mp hx with rfl | hx
    · exact Nat.le_trans (Nat.le_max_right a x) h1
    · exact h2 x hx

lemma foldl_max_mem (a : Nat) (l : List Nat) :
    l.foldl max a = a ∨ l.foldl max a ∈ l := by
  induction l generalizing a with
  | nil => exact Or.inl rfl
  | cons b bs ih =>
    rcases ih (max a b) with h | h
    · rw [List.foldl_cons, h]
      rcases max_choice a b with h' | h'
      · exact Or.inl h'
      · exact Or.inr (by rw [h']; exact List.mem_cons_self b bs)
    · exact Or.inr (List.mem_cons_of_mem b (by rw [List.foldl_cons]; exact h))

lemma list_max_eq_some {l : List Nat} (h : l ≠ []) :
    ∃ w, list_max l = some w ∧ w ∈ l ∧ ∀ x ∈ l, x ≤ w := by
  cases l with
  | nil => exact absurd rfl h
  | cons a as =>
    refine ⟨as.foldl max a, rfl, ?_, ?_⟩
    · rcases foldl_max_mem a as with h' | h'
      · rw [h']; exact List.mem_cons_self a as
      · exact List.mem_cons_of_mem a h'
    · intro x hx
      rcases List.mem_cons.mp hx with rfl | hx
      · exact (foldl_max_le x as).1
      · exact (foldl_max_le a as).2 x hx

lemma is_err_not_multiline {t : Text} (h : t.is_err = true) :
    t.is_multiline = false := by
  cases t <;> simp_all [Text.is_err, Text.is_multiline]

lemma had_err_iff (files : List Entry) :
    had_err files = true ↔ ∃ e ∈ files, e.2.is_err = true := by
  unfold had_err
  rw [List.any_eq_true]
  constructor
  · rintro ⟨e, he, h⟩
    exact ⟨e, (List.mem_filter.mp he).1, h⟩
  · rintro ⟨e, he, h⟩
    exact ⟨e, List.mem_filter.mpr ⟨he, by simp [is_err_not_multiline h]⟩, h⟩

lemma infix_append_right {α : Type} {l L R : List α} (h : l <:+: L) :
    l <:+: L ++ R := by
  obtain ⟨s, t, rfl⟩ := h
  exact ⟨s, t ++ R, by simp⟩

lemma infix_append_left {α : Type} {l L R : List α} (h : l <:+: R) :
    l <:+: L ++ R := by
  obtain ⟨s, t, rfl⟩ := h
  exact ⟨L ++ s, t, by simp⟩

lemma render_multiline_infix_pass2 {files : List Entry} {e : Entry}
    (he : e ∈ files) (hm : e.2.is_multiline = true) :
    render_multiline e <:+: pass2 files := by
  apply List.infix_of_mem_flatten
  exact List.mem_map_of_mem _ (List.mem_filter.mpr ⟨he, by simp [hm]⟩)

lemma render_oneline_infix_pass1 {files : List Entry} {e : Entry} {w : Nat}
    (he : e ∈ files) (hm : e.2.is_multiline = false) :
    render_oneline w e <:+: pass1 w files := by
  apply List.infix_of_mem_flatten
  exact List.mem_map_of_mem _ (List.mem_filter.mpr ⟨he, by simp [hm]⟩)

/-! ### Claims about the renderer -/

/-- C4: the renderer's output is the single-line pass followed by the
multi-line pass; each pass ranges over an order-preserving selection (a
sublist) of the input list: pass 1 over exactly the entries not classified
`multiline`, pass 2 over exactly the `multiline` ones. -/
theorem C4_two_pass_separation (files : List Entry) (w : Nat)
    (hw : list_max (files.map (fun e => e.1.length)) = some w) :
    run_render files =
      some (pass1 w files ++ pass2 files, if had_err files then 1 else 0) ∧
    (files.filter (fun e => !e.2.is_multiline)).Sublist files ∧
    (files.filter (fun e => e.2.is_multiline)).Sublist files ∧
    (∀ e ∈ files.filter (fun e => !e.2.is_multiline),
      e.2.is_multiline = false) ∧
    (∀ e ∈ files.filter (fun e => e.2.is_multiline),
      e.2.is_multiline = true) ∧
    (∀ e ∈ files, e.2.is_multiline = false →
      e ∈ files.filter (fun e => !e.2.is_multiline)) ∧
    (∀ e ∈ files, e.2.is_multiline = true →
      e ∈ files.filter (fun e => e.2.is_multiline)) := by
  refine ⟨?_, List.filter_sublist files, List.filter_sublist files,
    ?_, ?_, ?_, ?_⟩
  · unfold run_render
    rw [hw]
  · intro e he
    have := (List.mem_filter.mp he).2
    simpa using this
  · intro e he
    simpa using (List.mem_filter.mp he).2
  · intro e he h
    exact List.mem_filter.mpr ⟨he, by simp [h]⟩
  · intro e he h
    exact List.mem_filter.mpr ⟨he, by simp [h]⟩

/-- A small concrete entry list used to instantiate the renderer theorems:
a one-line file, a multi-line file with the longest path, and a read error. -/
def sampleFiles : List Entry :=
  [(['p'], Text.oneline ['h', 'i']),
   (['q', 'r', 's'], Text.multiline ['x', '\n', 'y', '\n']),
   (['e'], Text.err ['n', 'o'])]

/-- Witness for C4 on `sampleFiles` with width 3. -/
theorem C4_two_pass_separation_witness :
    run_render sampleFiles =
      some (pass1 3 sampleFiles ++ pass2 sampleFiles,
        if had_err sampleFiles then 1 else 0) ∧
    (sampleFiles.filter (fun e => !e.2.is_multiline)).Sublist sampleFiles ∧
    (sampleFiles.filter (fun e => e.2.is_multiline)).Sublist sampleFiles ∧
    (∀ e ∈ sampleFiles.filter (fun e => !e.2.is_multiline),
      e.2.is_multiline = false) ∧
    (∀ e ∈ sampleFiles.filter (fun e => e.2.is_multiline),
      e.2.is_multiline = true) ∧
    (∀ e ∈ sampleFiles, e.2.is_multiline = false →
      e ∈ sampleFiles.filter (fun e => !e.2.is_multiline)) ∧
    (∀ e ∈ sampleFiles, e.2.is_multiline = true →
      e ∈ sampleFiles.filter (fun e => e.2.is_multiline)) :=
  C4_two_pass_separation sampleFiles 3 (by decide)

/-- C5: for a non-empty entry list the alignment width of pass 1 is the
maximum path length over *all* entries (multiline ones included): it bounds
every path length and is attained by some entry. -/
theorem C5_alignment_width (files : List Entry) (h : files ≠ []) :
    ∃ w, list_max (files.map (fun e => e.1.length)) = some w ∧
      (∀ e ∈ files, e.1.length ≤ w) ∧
      (∃ e ∈ files, e.1.length = w) ∧
      run_render files =
        some (pass1 w files ++ pass2 files,
          if had_err files then 1 else 0) := by
  obtain ⟨w, hw, hmem, hle⟩ :=
    list_max_eq_some (l := files.map (fun e => e.1.length)) (by simpa using h)
  refine ⟨w, hw, ?_, ?_, ?_⟩
  · intro e he
    exact hle _ (List.mem_map_of_mem _ he)
  · obtain ⟨e, he, hel⟩ := List.mem_map.mp hmem
    exact ⟨e, he, hel⟩
  · unfold run_render
    rw [hw]

/-- Witness for C5 on `sampleFiles`. -/
theorem C5_alignment_width_witness :
    ∃ w, list_max (sampleFiles.map (fun e => e.1.length)) = some w ∧
      (∀ e ∈ sampleFiles, e.1.length ≤ w) ∧
      (∃ e ∈ sampleFiles, e.1.length = w) ∧
      run_render sampleFiles =
        some (pass1 w sampleFiles ++ pass2 sampleFiles,
          if had_err sampleFiles then 1 else 0) :=
  C5_alignment_width sampleFiles (by decide)

/-- C6: past argument parsing, the renderer completes both passes and only
then determines the exit code: failure (1) iff some entry is a read error,
0 when every read succeeded; each entry's rendering occurs in the output,
so one read error never suppresses the output of the other files. -/
theorem C6_exit_status (files : List Entry) (h : files ≠ []) :
    ∃ w out, run_render files = some (out, if had_err files then 1 else 0) ∧
      out = pass1 w files ++ pass2 files ∧
      (had_err files = true ↔ ∃ e ∈ files, e.2.is_err = true) ∧
      ((∀ e ∈ files, e.2.is_err = false) → run_render files = some (out, 0)) ∧
      (∀ e ∈ files, e.2.is_multiline = true → render_multiline e <:+: out) ∧
      (∀ e ∈ files, e.2.is_multiline = false →
        render_oneline w e <:+: out) := by
  obtain ⟨w, hw, _, _⟩ :=
    list_max_eq_some (l := files.map (fun e => e.1.length)) (by simpa using h)
  have hrun : run_render files =
      some (pass1 w files ++ pass2 files, if had_err files then 1 else 0) := by
    unfold run_render
    rw [hw]
  refine ⟨w, pass1 w files ++ pass2 files, hrun, rfl, had_err_iff files,
    ?_, ?_, ?_⟩
  · intro hall
    have hne : had_err files = false := by
      rw [Bool.eq_false_iff]
      intro hcon
      obtain ⟨e, he, herr⟩ := (had_err_iff files).mp hcon
      rw [hall e he] at herr
      exact Bool.false_ne_true herr
    rw [hrun, hne]
    simp
  · intro e he hm
    exact infix_append_left (render_multiline_infix_pass2 he hm)
  · intro e he hm
    exact infix_append_right (render_oneline_infix_pass1 he hm)

/-- Witness for C6 on `sampleFiles`. -/
theorem C6_exit_status_witness :
    ∃ w out, run_render sampleFiles =
        some (out, if had_err sampleFiles then 1 else 0) ∧
      out = pass1 w sampleFiles ++ pass2 sampleFiles ∧
      (had_err sampleFiles = true ↔ ∃ e ∈ sampleFiles, e.2.is_err = true) ∧
      ((∀ e ∈ sampleFiles, e.2.is_err = false) →
        run_render sampleFiles = some (out, 0)) ∧
      (∀ e ∈ sampleFiles, e.2.is_multiline = true →
        render_multiline e <:+: out) ∧
      (∀ e ∈ sampleFiles, e.2.is_multiline = false →
        render_oneline w e <:+: out) :=
  C6_exit_status sampleFiles (by decide)

lemma run_render_ne_none {files : List Entry} (h : files ≠ []) :
    run_render files ≠ none := by
  unfold run_render
  cases files with
  | nil => exact absurd rfl h
  | cons a as => simp [list_max]

/-! ### Claims about the argument parser -/

/-- C10: a successful `parse_args` always returns a non-empty path list, so
the `.expect("empty files list")` in `run()` is unreachable: neither the
renderer nor the whole program ever hits the modelled panic (`none`). -/
theorem C10_no_empty_panic (args paths : List (List Char))
    (h : (parse_args args).2.2 = .ok paths) :
    paths ≠ [] ∧
    (∀ f : List Char → Text,
      run_render (paths.map fun p => (p, f p)) ≠ none) ∧
    (∀ fs : List Char → Except (List Char) (List Char),
      run_main args fs ≠ none) := by
  have key : paths = args ∧ args ≠ [] ∧
      parse_args args = ([], [], .ok args) := by
    unfold parse_args at h ⊢
    by_cases he : args.isEmpty
    · rw [if_pos he] at h
      exact Except.noConfusion h
    · rw [if_neg he] at h ⊢
      cases hs : scan_args args with
      | some v =>
        obtain ⟨pout, perr, c⟩ := v
        rw [hs] at h
        exact Except.noConfusion h
      | none =>
        rw [hs] at h
        injection h with h
        refine ⟨h.symm, ?_, rfl⟩
        intro hnil
        exact he (by simp [hnil])
  obtain ⟨hpa, hne, hfull⟩ := key
  subst hpa
  have hmapne : ∀ f : List Char → Text,
      (paths.map fun p => (p, f p)) ≠ [] := by
    intro f hmap
    exact hne (List.map_eq_nil_iff.mp hmap)
  refine ⟨hne, fun f => run_render_ne_none (hmapne f), ?_⟩
  intro fs
  unfold run_main
  rw [hfull]
  cases hr : run_render (paths.map fun p => (p, Text.read fs p)) with
  | none => exact absurd hr (run_render_ne_none (hmapne _))
  | some v =>
    obtain ⟨out, c⟩ := v
    simp [hr]

/-- Witness for C10 at `args = ["f"]`. -/
theorem C10_no_empty_panic_witness :
    [['f']] ≠ ([] : List (List Char)) ∧
    (∀ f : List Char → Text,
      run_render ([['f']].map fun p => (p, f p)) ≠ none) ∧
    (∀ fs : List Char → Except (List Char) (List Char),
      run_main [['f']] fs ≠ none) :=
  C10_no_empty_panic [['f']] [['f']] rfl

lemma scan_args_cons (a : List Char) (rest : List (List Char)) :
    scan_args (a :: rest) =
      if a = ("-h").data ∨ a = ("--help").data then some (HELP, [], 0)
      else if starts_with_dash a then some ([], err_invalid a, 2)
      else scan_args rest := rfl

lemma scan_args_append_no_dash {pre : List (List Char)}
    (rest : List (List Char))
    (hpre : ∀ p ∈ pre, starts_with_dash p = false) :
    scan_args (pre ++ rest) = scan_args rest := by
  induction pre with
  | nil => rfl
  | cons p ps ih =>
    have hp := hpre p (by simp)
    have hph : ¬(p = ("-h").data ∨ p = ("--help").data) := by
      rintro (rfl | rfl)
      · exact absurd hp (by decide)
      · exact absurd hp (by decide)
    rw [List.cons_append, scan_args_cons, if_neg hph, if_neg (by simp [hp])]
    exact ih fun q hq => hpre q (by simp [hq])

/-- C9 counterexample: the help flag is present among the arguments
`["-x", "-h"]`, yet the program prints nothing to stdout and exits with
code 2 (the earlier unrecognized flag wins), not 0 with the usage text. -/
theorem C9_counterexample_help_not_first :
    ("-h").data ∈ [("-x").data, ("-h").data] ∧
    run_main [("-x").data, ("-h").data] (fun _ => Except.ok []) =
      some ([], err_invalid (("-x").data), 2) ∧ (2 : Nat) ≠ 0 := by
  refine ⟨by simp, rfl, by decide⟩

/-- C9 (amended): if `-h`/`--help` occurs among the arguments and no
argument before it starts with a dash (it is the first flag-like argument),
the program prints the usage text to stdout, prints nothing to stderr, and
exits 0; the result never depends on the filesystem (no file is read). -/
theorem C9_help_flag (pre rest : List (List Char)) (a : List Char)
    (ha : a = ("-h").data ∨ a = ("--help").data)
    (hpre : ∀ p ∈ pre, starts_with_dash p = false)
    (fs : List Char → Except (List Char) (List Char)) :
    run_main (pre ++ a :: rest) fs = some (HELP, [], 0) := by
  have hscan : scan_args (pre ++ a :: rest) = some (HELP, [], 0) := by
    rw [scan_args_append_no_dash _ hpre, scan_args_cons, if_pos ha]
  have hpa : parse_args (pre ++ a :: rest) = (HELP, [], .error 0) := by
    unfold parse_args
    rw [if_neg (by simp), hscan]
  unfold run_main
  rw [hpa]

/-- Witness for C9 (amended) at `args = ["f", "-h"]`. -/
theorem C9_help_flag_witness :
    run_main ([['f']] ++ ("-h").data :: []) (fun _ => Except.ok []) =
      some (HELP, [], 0) :=
  C9_help_flag [['f']] [] (("-h").data) (Or.inl rfl)
    (by intro p hp; simp at hp; subst hp; decide) (fun _ => Except.ok [])

/-- C8 counterexample: the arguments `["-h", "-x"]` contain the dash-prefixed
unrecognized argument `"-x"`, yet the program exits 0 and prints the usage
to stdout, not to stderr with code 2: the earlier help flag wins. -/
theorem C8_counterexample_flag_after_help :
    starts_with_dash (("-x").data) = true ∧
    ("-x").data ≠ ("-h").data ∧ ("-x").data ≠ ("--help").data ∧
    ("-x").data ∈ [("-h").data, ("-x").data] ∧
    run_main [("-h").data, ("-x").data] (fun _ => Except.ok []) =
      some (HELP, [], 0) ∧ (0 : Nat) ≠ 2 := by
  refine ⟨by decide, by decide, by decide, by simp, rfl, by decide⟩

/-- C8 (amended): with no arguments the program prints the missing-argument
message and usage to stderr and exits 2; when the first flag-like argument
is unrecognized it prints the invalid-argument message and usage to stderr,
nothing to stdout, and exits 2.  No file is read in either case: the result
never depends on the filesystem. -/
theorem C8_usage_errors (pre rest : List (List Char)) (a : List Char)
    (hpre : ∀ p ∈ pre, starts_with_dash p = false)
    (hd : starts_with_dash a = true)
    (hh : ¬(a = ("-h").data ∨ a = ("--help").data))
    (fs : List Char → Except (List Char) (List Char)) :
    run_main [] fs = some ([], ERR_MISSING, 2) ∧
    run_main (pre ++ a :: rest) fs = some ([], err_invalid a, 2) := by
  refine ⟨rfl, ?_⟩
  have hscan : scan_args (pre ++ a :: rest) = some ([], err_invalid a, 2) := by
    rw [scan_args_append_no_dash _ hpre, scan_args_cons, if_neg hh, if_pos hd]
  have hpa : parse_args (pre ++ a :: rest) = ([], err_invalid a, .error 2) := by
    unfold parse_args
    rw [if_neg (by simp), hscan]
  unfold run_main
  rw [hpa]

/-- Witness for C8 (amended) at `args = ["-x"]` (and `args = []`). -/
theorem C8_usage_errors_witness :
    run_main [] (fun _ => Except.ok []) = some ([], ERR_MISSING, 2) ∧
    run_main ([] ++ ("-x").data :: []) (fun _ => Except.ok []) =
      some ([], err_invalid (("-x").data), 2) :=
  C8_usage_errors [] [] (("-x").data) (by simp) (by decide) (by decide)
    (fun _ => Except.ok [])

/-! ### The directory-scan mode of the variant with an all flag -/

/-- Modelled from the spec: the kind of a directory entry, as seen by the
`-a`/`--all` mode of the repository's variant that has it (that variant is
not under src/; src/main.rs only has the explicit-path parser).  The spec
distinguishes regular files from subdirectories and other special entries. -/
inductive FileKind where
  | regular
  | directory
  | special
deriving DecidableEq

/-- Modelled from the spec: "a flag causes the resolver to enumerate entries
of the current working directory, keep only regular files (excluding
subdirectories and other special entries), and return their names", with
the enumeration given as a list of name/kind pairs in directory order. -/
def resolve_all (entries : List (List Char × FileKind)) : List (List Char) :=
  (entries.filter (fun e => e.2 = FileKind.regular)).map (fun e => e.1)

/-- Modelled from the spec: path resolution of the variant supporting
`-a`/`--all`: when the flag is supplied the directory scan replaces the
explicit path arguments. -/
def resolve_paths (allFlag : Bool) (explicitPaths : List (List Char))
    (entries : List (List Char × FileKind)) : List (List Char) :=
  if allFlag then resolve_all entries else explicitPaths

/-- C7 (spec-modelled): with the all flag supplied, the resolved paths
ignore the explicit arguments and are the names of exactly the regular-file
entries of the current directory, in enumeration order (a sublist of the
full name listing); no directory or special entry contributes a name beyond
those of regular files. -/
theorem C7_all_mode_regular_files (explicitPaths : List (List Char))
    (entries : List (List Char × FileKind)) :
    resolve_paths true explicitPaths entries = resolve_all entries ∧
    (∀ e ∈ entries, e.2 = FileKind.regular → e.1 ∈ resolve_all entries) ∧
    (∀ n ∈ resolve_all entries,
      ∃ e ∈ entries, e.1 = n ∧ e.2 = FileKind.regular) ∧
    (resolve_all entries).Sublist (entries.map (fun e => e.1)) := by
  refine ⟨rfl, ?_, ?_, ?_⟩
  · intro e he hr
    exact List.mem_map_of_mem _ (List.mem_filter.mpr ⟨he, by simp [hr]⟩)
  · intro n hn
    obtain ⟨e, he, hen⟩ := List.mem_map.mp hn
    have hf := List.mem_filter.mp he
    exact ⟨e, hf.1, hen, by simpa using hf.2⟩
  · exact (List.filter_sublist entries).map (fun e => e.1)

/-- Witness for C7 on a two-entry directory listing. -/
theorem C7_all_mode_regular_files_witness :
    resolve_paths true [['x']]
        [(['a'], FileKind.regular), (['d'], FileKind.directory)] =
      resolve_all [(['a'], FileKind.regular), (['d'], FileKind.directory)] ∧
    (∀ e ∈ [(['a'], FileKind.regular), (['d'], FileKind.directory)],
      e.2 = FileKind.regular →
        e.1 ∈ resolve_all
          [(['a'], FileKind.regular), (['d'], FileKind.directory)]) ∧
    (∀ n ∈ resolve_all
        [(['a'], FileKind.regular), (['d'], FileKind.directory)],
      ∃ e ∈ [(['a'], FileKind.regular), (['d'], FileKind.directory)],
        e.1 = n ∧ e.2 = FileKind.regular) ∧
    (resolve_all
        [(['a'], FileKind.regular), (['d'], FileKind.directory)]).Sublist
      ([(['a'], FileKind.regular), (['d'], FileKind.directory)].map
        (fun e => e.1)) :=
  C7_all_mode_regular_files [['x']]
    [(['a'], FileKind.regular), (['d'], FileKind.directory)]
